import Mathlib

/-!
Verification of the pledger transaction engine.

The engine ingests a sequential log of financial events (deposits, withdrawals,
disputes, resolutions, chargebacks) into a mutable ledger-entry store
(src/transactions_store.rs), then reconstructs each client's account snapshot by
folding that client's entries in ordinal order (src/transactions.rs,
`get_account_for_client`), rounding the result (src/output.rs, `round_amounts`).

Amounts are arbitrary-precision decimals (the Rust `BigDecimal` crate), exchanged
as exact decimal text; they are modelled here as rationals `ℚ`, an exact superset
of the finite decimals, with exact addition, negation, absolute value, comparison.
The store is an SQLite table; it is modelled as the list of its rows in ascending
`ordinal` order (insertion appends with a fresh, strictly larger ordinal, and flag
updates preserve rows in place, so the list order is exactly the `ORDER BY ordinal`
order used by every read).
-/

namespace Pledger

/-- One row of the `transactions` table (struct `MutableTransaction` in
src/transactions_store.rs). The `amount` column is decimal text in the store and
is parsed back to an exact decimal on every read; it is modelled as the exact
rational it denotes (positive = deposit, negative = withdrawal). -/
structure MutableTransaction where
  ordinal : ℕ
  client_id : ℕ
  transaction_id : ℕ
  amount : ℚ
  disputed : Bool
  charged_back : Bool
deriving DecidableEq

/-- The mutable transaction store (struct `MutableTransactionStore` in
src/transactions_store.rs): the state of the `transactions` table, kept as the
list of rows in ascending ordinal order, plus the next ordinal the engine's
`INTEGER PRIMARY KEY` column would assign. -/
structure MutableTransactionStore where
  transactions : List MutableTransaction
  next_ordinal : ℕ
deriving DecidableEq

/-- The empty store produced by `clean_and_recreate` (src/transactions_store.rs):
the table is dropped and recreated empty; SQLite assigns ordinals from 1. -/
def emptyStore : MutableTransactionStore := ⟨[], 1⟩

/-- `insert_transaction` (src/transactions_store.rs): INSERT with
`disputed = false, charged_back = false`, `ON CONFLICT (transaction_id) DO NOTHING`
-- a colliding `transaction_id` leaves the store untouched (first writer wins). -/
def insert_transaction (client_id transaction_id : ℕ) (amount : ℚ)
    (s : MutableTransactionStore) : MutableTransactionStore :=
  if s.transactions.any (fun e => e.transaction_id == transaction_id) then s
  else
    { transactions := s.transactions ++
        [⟨s.next_ordinal, client_id, transaction_id, amount, false, false⟩],
      next_ordinal := s.next_ordinal + 1 }

/-- `dispute_transaction` (src/transactions_store.rs): UPDATE SET `disputed = true`
WHERE `client_id = $1 AND transaction_id = $2`. -/
def dispute_transaction (client_id transaction_id : ℕ)
    (s : MutableTransactionStore) : MutableTransactionStore :=
  { s with transactions := s.transactions.map (fun e =>
      if e.client_id = client_id ∧ e.transaction_id = transaction_id then
        { e with disputed := true }
      else e) }

/-- `resolve_dispute` (src/transactions_store.rs): UPDATE SET `disputed = false`
WHERE `client_id = $1 AND transaction_id = $2`. -/
def resolve_dispute (client_id transaction_id : ℕ)
    (s : MutableTransactionStore) : MutableTransactionStore :=
  { s with transactions := s.transactions.map (fun e =>
      if e.client_id = client_id ∧ e.transaction_id = transaction_id then
        { e with disputed := false }
      else e) }

/-- `chargeback_transaction` (src/transactions_store.rs): UPDATE SET
`disputed = false, charged_back = true`
WHERE `client_id = $1 AND transaction_id = $2 AND disputed = true`. -/
def chargeback_transaction (client_id transaction_id : ℕ)
    (s : MutableTransactionStore) : MutableTransactionStore :=
  { s with transactions := s.transactions.map (fun e =>
      if e.client_id = client_id ∧ e.transaction_id = transaction_id ∧ e.disputed = true then
        { e with disputed := false, charged_back := true }
      else e) }

/-- `get_transactions_for_client` (src/transactions_store.rs): SELECT WHERE
`client_id = $1` ORDER BY ordinal. The store list is maintained in ascending
ordinal order, so the query is a filter. -/
def get_transactions_for_client (client_id : ℕ)
    (s : MutableTransactionStore) : List MutableTransaction :=
  s.transactions.filter (fun e => e.client_id == client_id)

/-- Account snapshot (struct `OutputAccount` in src/output.rs). -/
structure OutputAccount where
  client : ℕ
  available : ℚ
  held : ℚ
  total : ℚ
  locked : Bool
deriving DecidableEq

/-- Modelled from the spec: round a rational to the nearest integer, ties to even.
The spec's §6 Decimal collaborator ("round-half-even to N fractional digits") is
the `BigDecimal` crate, which is not part of this repository's sources. -/
def roundHalfEvenInt (x : ℚ) : ℤ :=
  if x - ⌊x⌋ < 1/2 then ⌊x⌋
  else if 1/2 < x - ⌊x⌋ then ⌊x⌋ + 1
  else if ⌊x⌋ % 2 = 0 then ⌊x⌋ else ⌊x⌋ + 1

/-- Modelled from the spec: round-half-even to `digits` fractional digits
(`BigDecimal::round`, used by `round_amounts` in src/output.rs). -/
def roundHalfEven (digits : ℕ) (x : ℚ) : ℚ :=
  (roundHalfEvenInt (x * 10 ^ digits) : ℚ) / 10 ^ digits

/-- `round_amounts` (src/output.rs): round `available`, `held`, `total` in place
to `round_digits` fractional digits. -/
def OutputAccount.round_amounts (account : OutputAccount) (round_digits : ℕ) : OutputAccount :=
  { account with
    available := roundHalfEven round_digits account.available,
    held := roundHalfEven round_digits account.held,
    total := roundHalfEven round_digits account.total }

/-- The candidate `new_held` computed for one entry inside the fold of
`get_account_for_client` (src/transactions.rs lines 79-88): starts at the current
`held` and, if the entry is disputed, the absolute value of the amount is added. -/
def candidate_held (account : OutputAccount) (t : MutableTransaction) : ℚ :=
  if t.disputed then account.held + |t.amount| else account.held

/-- The candidate `new_available` computed for one entry inside the fold of
`get_account_for_client` (src/transactions.rs lines 79-88): starts at the current
`available`; a disputed entry adds its signed amount only when it is negative,
a non-disputed entry always adds its signed amount. -/
def candidate_available (account : OutputAccount) (t : MutableTransaction) : ℚ :=
  if t.disputed then
    (if t.amount < 0 then account.available + t.amount else account.available)
  else account.available + t.amount

/-- The `while let` loop of `get_account_for_client` (src/transactions.rs lines
72-96). Returns the accumulated account and whether the loop was exited early by
the `charged_back` branch (the Rust early `return`, which bypasses the final
`round_amounts` call). -/
def get_account_loop (account : OutputAccount) :
    List MutableTransaction → OutputAccount × Bool
  | [] => (account, false)
  | t :: rest =>
    if t.charged_back then
      ({ account with locked := true }, true)
    else
      let new_held := candidate_held account t
      let new_available := candidate_available account t
      let new_total := new_available + new_held
      if new_available < 0 then
        get_account_loop account rest
      else
        get_account_loop
          { account with available := new_available, held := new_held, total := new_total }
          rest

/-- The initial account of `get_account_for_client`: all balances zero, unlocked. -/
def initialAccount (client_id : ℕ) : OutputAccount :=
  ⟨client_id, 0, 0, 0, false⟩

/-- `get_account_for_client` (src/transactions.rs): fold the client's entries in
ordinal order through `get_account_loop`; on early exit (charged-back entry) the
account is returned as accumulated, otherwise `round_amounts 4` is applied. -/
def get_account_for_client (client_id : ℕ) (s : MutableTransactionStore) : OutputAccount :=
  let result := get_account_loop (initialAccount client_id) (get_transactions_for_client client_id s)
  if result.2 then result.1 else result.1.round_amounts 4

/-- The raw account accumulated by the fold for a client, before any rounding. -/
def rawAccount (client_id : ℕ) (s : MutableTransactionStore) : OutputAccount :=
  (get_account_loop (initialAccount client_id) (get_transactions_for_client client_id s)).1

/-- Whether the fold for a client is halted early by a charged-back entry. -/
def haltedByChargeback (client_id : ℕ) (s : MutableTransactionStore) : Bool :=
  (get_account_loop (initialAccount client_id) (get_transactions_for_client client_id s)).2

/-- Event kinds (enum `TransactionType` in src/input.rs). -/
inductive TransactionType where
  | deposit | withdrawal | dispute | resolve | chargeback
deriving DecidableEq

/-- One incoming event (struct `InputTransaction` in src/input.rs). -/
structure InputTransaction where
  transaction_type : TransactionType
  client : ℕ
  tx : ℕ
  amount : Option ℚ
deriving DecidableEq

/-- `add_input` (src/transactions.rs): apply one event to the store. Deposits and
withdrawals insert a ledger entry with the signed amount (and fail when the
amount is missing); the other three call the corresponding store mutation and
always succeed. -/
def add_input (s : MutableTransactionStore) (it : InputTransaction) :
    Except String MutableTransactionStore :=
  match it.transaction_type with
  | .deposit =>
    match it.amount with
    | none => .error "Deposit must have an amount"
    | some a => .ok (insert_transaction it.client it.tx a s)
  | .withdrawal =>
    match it.amount with
    | none => .error "Deposit must have an amount"
    | some a => .ok (insert_transaction it.client it.tx (-a) s)
  | .dispute => .ok (dispute_transaction it.client it.tx s)
  | .resolve => .ok (resolve_dispute it.client it.tx s)
  | .chargeback => .ok (chargeback_transaction it.client it.tx s)

/-- The ingestion loop of `process_transactions` (src/main.rs): events are applied
one at a time, in arrival order; the first failure aborts the run. -/
def runEvents (s : MutableTransactionStore) :
    List InputTransaction → Except String MutableTransactionStore
  | [] => .ok s
  | it :: rest =>
    match add_input s it with
    | .error msg => .error msg
    | .ok s1 => runEvents s1 rest

/-! Concrete example stores, used by the witness and counterexample theorems. -/

/-- One deposit of 0.00005 for client 1: reconstruction runs to completion. -/
def exStoreTiny : MutableTransactionStore :=
  insert_transaction 1 1 (1/20000) emptyStore

/-- Deposit 0.00005, then a deposit of 1 that is disputed and charged back:
reconstruction halts at the second entry with the first one unrounded. -/
def exStoreHalted : MutableTransactionStore :=
  chargeback_transaction 1 2 (dispute_transaction 1 2
    (insert_transaction 1 2 1 exStoreTiny))

/-- Two deposits of 0.00004, the second disputed: each of available and held
rounds to 0 while their sum rounds to 0.0001. -/
def exStoreRounding : MutableTransactionStore :=
  dispute_transaction 1 2 (insert_transaction 1 2 (1/25000)
    (insert_transaction 1 1 (1/25000) emptyStore))

/-- A single undisputed deposit of 3 for client 7, transaction 15. -/
def exStoreSingle : MutableTransactionStore :=
  insert_transaction 7 15 3 emptyStore

/-- The single deposit of `exStoreSingle`, disputed. -/
def exStoreDisputed : MutableTransactionStore :=
  dispute_transaction 7 15 exStoreSingle

/-- The single deposit of `exStoreSingle`, disputed and then charged back. -/
def exStoreChargedBack : MutableTransactionStore :=
  chargeback_transaction 7 15 exStoreDisputed

/-- Deposits for two different clients: transaction 15 of client 7 and
transaction 13 of client 8. -/
def exStoreTwoClients : MutableTransactionStore :=
  insert_transaction 8 13 3 exStoreSingle

/-- Scenario E of the spec: Deposit(1,1,100), Deposit(1,2,50), Dispute(1,2),
Deposit(1,3,30), Chargeback(1,2), Deposit(1,4,25). -/
def exStoreScenarioE : MutableTransactionStore :=
  insert_transaction 1 4 25 (chargeback_transaction 1 2
    (insert_transaction 1 3 30 (dispute_transaction 1 2
      (insert_transaction 1 2 50 (insert_transaction 1 1 100 emptyStore)))))

/-! Helper lemmas about the fold and the rounding. -/

/-- The fold preserves the running invariant `total = available + held`. -/
theorem get_account_loop_total (l : List MutableTransaction) (acc : OutputAccount)
    (h : acc.total = acc.available + acc.held) :
    ((get_account_loop acc l).1).total =
      ((get_account_loop acc l).1).available + ((get_account_loop acc l).1).held := by
  induction l generalizing acc with
  | nil => simpa [get_account_loop] using h
  | cons t rest ih =>
    rw [get_account_loop]
    split
    · simpa using h
    · dsimp only
      split
      · exact ih acc h
      · exact ih _ rfl

/-- A charged-back entry after a chargeback-free prefix halts the fold with the
prefix's accumulated state, locked. -/
theorem get_account_loop_append_halt (pre : List MutableTransaction)
    (t : MutableTransaction) (post : List MutableTransaction) (acc : OutputAccount)
    (hpre : ∀ e ∈ pre, e.charged_back = false) (ht : t.charged_back = true) :
    get_account_loop acc (pre ++ t :: post) =
      ({ (get_account_loop acc pre).1 with locked := true }, true) := by
  induction pre generalizing acc with
  | nil => simp [get_account_loop, ht]
  | cons e pre2 ih =>
    have he : e.charged_back = false := hpre e (by simp)
    have hpre2 : ∀ x ∈ pre2, x.charged_back = false := fun x hx => hpre x (by simp [hx])
    rw [List.cons_append, get_account_loop, get_account_loop]
    simp only [he, Bool.false_eq_true, if_false]
    split
    · exact ih _ hpre2
    · exact ih _ hpre2

/-- When the fold is halted early, the returned account is locked. -/
theorem get_account_loop_locked_of_halted (l : List MutableTransaction)
    (acc : OutputAccount) (h : (get_account_loop acc l).2 = true) :
    (get_account_loop acc l).1.locked = true := by
  induction l generalizing acc with
  | nil => simp [get_account_loop] at h
  | cons t rest ih =>
    rw [get_account_loop] at h ⊢
    by_cases hcb2 : t.charged_back = true
    · simp [hcb2]
    · simp only [hcb2, if_false] at h ⊢
      by_cases hneg : candidate_available acc t < 0
      · simp only [hneg, if_true] at h ⊢
        exact ih _ h
      · simp only [hneg, if_false] at h ⊢
        exact ih _ h

/-- When the fold runs to completion, the locked flag is unchanged. -/
theorem get_account_loop_locked_of_done (l : List MutableTransaction)
    (acc : OutputAccount) (h : (get_account_loop acc l).2 = false) :
    (get_account_loop acc l).1.locked = acc.locked := by
  induction l generalizing acc with
  | nil => simp [get_account_loop]
  | cons t rest ih =>
    rw [get_account_loop] at h ⊢
    by_cases hcb2 : t.charged_back = true
    · simp [hcb2] at h
    · simp only [hcb2, if_false] at h ⊢
      by_cases hneg : candidate_available acc t < 0
      · simp only [hneg, if_true] at h ⊢
        exact ih _ h
      · simp only [hneg, if_false] at h ⊢
        exact ih _ h

/-- A list containing a charged-back entry always halts the fold early. -/
theorem get_account_loop_halted_of_mem (l : List MutableTransaction)
    (acc : OutputAccount) (e : MutableTransaction) (he : e ∈ l)
    (hcb : e.charged_back = true) :
    (get_account_loop acc l).2 = true := by
  induction l generalizing acc with
  | nil => cases he
  | cons t rest ih =>
    rw [get_account_loop]
    rcases List.mem_cons.mp he with rfl | hmem
    · simp [hcb]
    · by_cases hcb2 : t.charged_back = true
      · simp [hcb2]
      · simp only [hcb2, if_false]
        by_cases hneg : candidate_available acc t < 0
        · simp only [hneg, if_true]
          exact ih _ hmem
        · simp only [hneg, if_false]
          exact ih _ hmem

/-- Rounding an integer to the nearest integer is the identity. -/
theorem roundHalfEvenInt_intCast (k : ℤ) : roundHalfEvenInt (k : ℚ) = k := by
  norm_num [roundHalfEvenInt]

/-- Round-half-even to a fixed number of fractional digits is idempotent. -/
theorem roundHalfEven_idem (digits : ℕ) (x : ℚ) :
    roundHalfEven digits (roundHalfEven digits x) = roundHalfEven digits x := by
  have h10 : ((10 : ℚ) ^ digits) ≠ 0 := by positivity
  unfold roundHalfEven
  rw [div_mul_cancel₀ _ h10, roundHalfEvenInt_intCast]

/-- A flag update whose condition matches no stored entry leaves the whole store
unchanged. -/
theorem store_update_eq_self (s : MutableTransactionStore)
    (f : MutableTransaction → MutableTransaction)
    (h : ∀ e ∈ s.transactions, f e = e) :
    ({ s with transactions := s.transactions.map f } : MutableTransactionStore) = s := by
  obtain ⟨tr, no⟩ := s
  simp only [MutableTransactionStore.mk.injEq, and_true]
  rw [List.map_congr_left h]
  simp

/-- Mapping an entry-wise update that preserves client, transaction id and an
already-set charged-back flag preserves the presence of such an entry. -/
theorem mem_map_preserving (l : List MutableTransaction)
    (f : MutableTransaction → MutableTransaction)
    (hf : ∀ e, (f e).client_id = e.client_id ∧ (f e).transaction_id = e.transaction_id ∧
      (e.charged_back = true → (f e).charged_back = true))
    (c t : ℕ) (h : ∃ e ∈ l, e.client_id = c ∧ e.transaction_id = t ∧ e.charged_back = true) :
    ∃ e ∈ l.map f, e.client_id = c ∧ e.transaction_id = t ∧ e.charged_back = true := by
  obtain ⟨e, he, h1, h2, h3⟩ := h
  exact ⟨f e, List.mem_map_of_mem f he,
    by rw [(hf e).1, h1], by rw [(hf e).2.1, h2], (hf e).2.2 h3⟩

/-! Claim theorems. -/

/-- C3: during reconstruction, an entry (not charged back) whose candidate new
available value would be negative is discarded entirely: the accumulated
available, held and total remain exactly as they were before the entry, and the
fold continues with the next entry. -/
theorem C3_negative_guard (account : OutputAccount) (t : MutableTransaction)
    (rest : List MutableTransaction) (hcb : t.charged_back = false)
    (hneg : candidate_available account t < 0) :
    get_account_loop account (t :: rest) = get_account_loop account rest := by
  rw [get_account_loop]
  simp [hcb, hneg]

/-- Witness for C3: a withdrawal of 200 against an available balance of 100 is
rejected and leaves the fold state untouched. -/
theorem C3_negative_guard_witness :
    (⟨2, 1, 2, -200, false, false⟩ : MutableTransaction).charged_back = false
    ∧ candidate_available ⟨1, 100, 0, 100, false⟩ ⟨2, 1, 2, -200, false, false⟩ < 0
    ∧ get_account_loop ⟨1, 100, 0, 100, false⟩ [⟨2, 1, 2, -200, false, false⟩] =
        get_account_loop ⟨1, 100, 0, 100, false⟩ [] :=
  ⟨rfl, by norm_num [candidate_available],
    C3_negative_guard _ _ _ rfl (by norm_num [candidate_available])⟩

/-- C4: for an entry processed by the fold that is not charged back, the fold
computes candidate balances -- disputed: the absolute value of the amount is
added to held, and the signed amount is added to available exactly when it is
negative; not disputed: the signed amount is added to available and held is
unchanged -- and commits them subject to the negative-funds guard. -/
theorem C4_candidate_rule (account : OutputAccount) (t : MutableTransaction)
    (rest : List MutableTransaction) (hcb : t.charged_back = false) :
    (get_account_loop account (t :: rest) =
      if candidate_available account t < 0 then get_account_loop account rest
      else get_account_loop { account with
        available := candidate_available account t,
        held := candidate_held account t,
        total := candidate_available account t + candidate_held account t } rest)
    ∧ (t.disputed = true →
        candidate_held account t = account.held + |t.amount|
        ∧ (t.amount < 0 → candidate_available account t = account.available + t.amount)
        ∧ (0 ≤ t.amount → candidate_available account t = account.available))
    ∧ (t.disputed = false →
        candidate_available account t = account.available + t.amount
        ∧ candidate_held account t = account.held) := by
  refine ⟨?_, fun hd => ⟨?_, fun hlt => ?_, fun hge => ?_⟩, fun hd => ⟨?_, ?_⟩⟩
  · rw [get_account_loop]
    simp [hcb]
  · simp [candidate_held, hd]
  · simp [candidate_available, hd, hlt]
  · simp [candidate_available, hd, not_lt.mpr hge]
  · simp [candidate_available, hd]
  · simp [candidate_held, hd]

/-- Witness for C4: a disputed withdrawal of 20 against available 100, held 10
moves 20 into held and subtracts 20 from available. -/
theorem C4_candidate_rule_witness :
    get_account_loop ⟨1, 100, 10, 110, false⟩ [⟨3, 1, 5, -20, true, false⟩] =
      (⟨1, 80, 30, 110, false⟩, false) := by
  have h := C4_candidate_rule ⟨1, 100, 10, 110, false⟩ ⟨3, 1, 5, -20, true, false⟩ [] rfl
  rw [h.1]
  norm_num [candidate_available, candidate_held, get_account_loop]

/-- C9: Dispute, Resolve and Chargeback mutate only entries matching both the
client id and the transaction id of the event: an entry with the same
transaction id but a different client id is left unchanged, at its position. -/
theorem C9_cross_client_frame (s : MutableTransactionStore) (c t i : ℕ)
    (e : MutableTransaction) (he : s.transactions[i]? = some e)
    (htx : e.transaction_id = t) (hcl : e.client_id ≠ c) :
    (dispute_transaction c t s).transactions[i]? = some e
    ∧ (resolve_dispute c t s).transactions[i]? = some e
    ∧ (chargeback_transaction c t s).transactions[i]? = some e := by
  refine ⟨?_, ?_, ?_⟩ <;>
    simp [dispute_transaction, resolve_dispute, chargeback_transaction,
      List.getElem?_map, he, hcl]

/-- Witness for C9: an event of client 7 naming client 8's transaction 13 leaves
client 8's entry unchanged under all three flag mutations. -/
theorem C9_cross_client_frame_witness :
    (dispute_transaction 7 13 exStoreTwoClients).transactions[1]? =
      some ⟨2, 8, 13, 3, false, false⟩
    ∧ (resolve_dispute 7 13 exStoreTwoClients).transactions[1]? =
      some ⟨2, 8, 13, 3, false, false⟩
    ∧ (chargeback_transaction 7 13 exStoreTwoClients).transactions[1]? =
      some ⟨2, 8, 13, 3, false, false⟩ :=
  C9_cross_client_frame exStoreTwoClients 7 13 1 ⟨2, 8, 13, 3, false, false⟩
    (by norm_num [exStoreTwoClients, exStoreSingle, insert_transaction, emptyStore])
    rfl (by norm_num)

/-- C10: a Dispute, Resolve or Chargeback event naming a (client, transaction)
pair with no matching ledger entry is ingested successfully and leaves the store
completely unchanged. -/
theorem C10_unknown_reference (s : MutableTransactionStore) (c t : ℕ) (a : Option ℚ)
    (h : ∀ e ∈ s.transactions, ¬(e.client_id = c ∧ e.transaction_id = t)) :
    add_input s ⟨.dispute, c, t, a⟩ = .ok s
    ∧ add_input s ⟨.resolve, c, t, a⟩ = .ok s
    ∧ add_input s ⟨.chargeback, c, t, a⟩ = .ok s := by
  have hd : dispute_transaction c t s = s :=
    store_update_eq_self s _ (fun e he => if_neg (h e he))
  have hr : resolve_dispute c t s = s :=
    store_update_eq_self s _ (fun e he => if_neg (h e he))
  have hc : chargeback_transaction c t s = s :=
    store_update_eq_self s _
      (fun e he => if_neg (fun hcond => h e he ⟨hcond.1, hcond.2.1⟩))
  exact ⟨by simp [add_input, hd], by simp [add_input, hr], by simp [add_input, hc]⟩

/-- Witness for C10: events naming the unknown pair (client 1, transaction 2)
against a store holding only client 7's transaction 15 succeed and change
nothing. -/
theorem C10_unknown_reference_witness :
    add_input exStoreSingle ⟨.dispute, 1, 2, none⟩ = .ok exStoreSingle
    ∧ add_input exStoreSingle ⟨.resolve, 1, 2, none⟩ = .ok exStoreSingle
    ∧ add_input exStoreSingle ⟨.chargeback, 1, 2, none⟩ = .ok exStoreSingle :=
  C10_unknown_reference exStoreSingle 1 2 none
    (by norm_num [exStoreSingle, insert_transaction, emptyStore])

/-- C1 (counterexample): the fold halted early by a charged-back entry returns
the snapshot without rounding: in `exStoreHalted` the available balance stays at
the unrounded 0.00005, whose round-half-even value at 4 digits is 0. -/
theorem C1_rounding_counterexample :
    haltedByChargeback 1 exStoreHalted = true
    ∧ (get_account_for_client 1 exStoreHalted).available = 1/20000
    ∧ roundHalfEven 4 (1/20000) = 0
    ∧ (get_account_for_client 1 exStoreHalted).available ≠
        roundHalfEven 4 ((get_account_for_client 1 exStoreHalted).available) := by
  norm_num [exStoreHalted, exStoreTiny, haltedByChargeback, get_account_for_client,
    get_transactions_for_client, chargeback_transaction, dispute_transaction,
    insert_transaction, emptyStore, get_account_loop, initialAccount, candidate_held,
    candidate_available, OutputAccount.round_amounts, roundHalfEven, roundHalfEvenInt]

/-- C1 (amended): when the fold runs to the end of the client's entries, the
returned snapshot is the accumulated snapshot with available, held and total
rounded to 4 decimal places by round-half-even (so each returned field is a
fixed point of that rounding); when the fold is halted early by a charged-back
entry, the snapshot is returned exactly as accumulated, without rounding. -/
theorem C1_rounding (c : ℕ) (s : MutableTransactionStore) :
    (haltedByChargeback c s = false →
      get_account_for_client c s = (rawAccount c s).round_amounts 4
      ∧ roundHalfEven 4 (get_account_for_client c s).available =
          (get_account_for_client c s).available
      ∧ roundHalfEven 4 (get_account_for_client c s).held =
          (get_account_for_client c s).held
      ∧ roundHalfEven 4 (get_account_for_client c s).total =
          (get_account_for_client c s).total)
    ∧ (haltedByChargeback c s = true →
      get_account_for_client c s = rawAccount c s) := by
  constructor
  · intro h
    rw [haltedByChargeback] at h
    have hg : get_account_for_client c s = (rawAccount c s).round_amounts 4 := by
      simp only [get_account_for_client, rawAccount, h]
      simp
    refine ⟨hg, ?_, ?_, ?_⟩ <;> rw [hg] <;>
      simp [OutputAccount.round_amounts, roundHalfEven_idem]
  · intro h
    rw [haltedByChargeback] at h
    simp only [get_account_for_client, rawAccount, h]
    simp

/-- Witness for C1 at both exits: the completion path on `exStoreTiny` rounds,
the halted path on `exStoreHalted` returns the raw accumulated snapshot. -/
theorem C1_rounding_witness :
    (get_account_for_client 1 exStoreTiny = (rawAccount 1 exStoreTiny).round_amounts 4
      ∧ roundHalfEven 4 (get_account_for_client 1 exStoreTiny).available =
          (get_account_for_client 1 exStoreTiny).available
      ∧ roundHalfEven 4 (get_account_for_client 1 exStoreTiny).held =
          (get_account_for_client 1 exStoreTiny).held
      ∧ roundHalfEven 4 (get_account_for_client 1 exStoreTiny).total =
          (get_account_for_client 1 exStoreTiny).total)
    ∧ get_account_for_client 1 exStoreHalted = rawAccount 1 exStoreHalted :=
  ⟨(C1_rounding 1 exStoreTiny).1
      (by norm_num [haltedByChargeback, exStoreTiny, get_transactions_for_client,
        insert_transaction, emptyStore, get_account_loop, initialAccount,
        candidate_available, candidate_held]),
   (C1_rounding 1 exStoreHalted).2
      (by norm_num [haltedByChargeback, exStoreHalted, exStoreTiny,
        get_transactions_for_client, chargeback_transaction, dispute_transaction,
        insert_transaction, emptyStore, get_account_loop, initialAccount,
        candidate_available, candidate_held])⟩

/-- C2 (counterexample): rounding available, held and total independently can
break the identity: in `exStoreRounding`, available and held (0.00004 each)
round to 0 while total (0.00008) rounds to 0.0001. -/
theorem C2_total_counterexample :
    (get_account_for_client 1 exStoreRounding).total ≠
      (get_account_for_client 1 exStoreRounding).available +
        (get_account_for_client 1 exStoreRounding).held := by
  norm_num [exStoreRounding, get_account_for_client, get_transactions_for_client,
    dispute_transaction, insert_transaction, emptyStore, get_account_loop,
    initialAccount, candidate_held, candidate_available,
    OutputAccount.round_amounts, roundHalfEven, roundHalfEvenInt, abs_of_nonneg]

/-- C2 (amended): the snapshot accumulated by the fold satisfies
total = available + held before the final rounding, and hence the returned
snapshot satisfies it whenever the fold is halted by a chargeback; after the
three fields are rounded independently on the completion path, the identity can
fail. -/
theorem C2_total_invariant (c : ℕ) (s : MutableTransactionStore) :
    (rawAccount c s).total = (rawAccount c s).available + (rawAccount c s).held
    ∧ (haltedByChargeback c s = true →
        (get_account_for_client c s).total =
          (get_account_for_client c s).available +
            (get_account_for_client c s).held) := by
  constructor
  · unfold rawAccount
    exact get_account_loop_total _ _ (by simp [initialAccount])
  · intro h
    rw [haltedByChargeback] at h
    have hg : get_account_for_client c s = rawAccount c s := by
      simp only [get_account_for_client, rawAccount, h]
      simp
    rw [hg]
    unfold rawAccount
    exact get_account_loop_total _ _ (by simp [initialAccount])

/-- Witness for C2 on the halted store `exStoreHalted`. -/
theorem C2_total_invariant_witness :
    ((rawAccount 1 exStoreHalted).total =
      (rawAccount 1 exStoreHalted).available + (rawAccount 1 exStoreHalted).held)
    ∧ (get_account_for_client 1 exStoreHalted).total =
        (get_account_for_client 1 exStoreHalted).available +
          (get_account_for_client 1 exStoreHalted).held :=
  ⟨(C2_total_invariant 1 exStoreHalted).1,
   (C2_total_invariant 1 exStoreHalted).2
      (by norm_num [haltedByChargeback, exStoreHalted, exStoreTiny,
        get_transactions_for_client, chargeback_transaction, dispute_transaction,
        insert_transaction, emptyStore, get_account_loop, initialAccount,
        candidate_available, candidate_held])⟩

/-- C5: reconstruction halts at the first charged-back entry of the client's
ordinal-ordered entry list: the returned snapshot is the state accumulated from
the strictly earlier entries with locked set, entries at and after the
charged-back one contribute nothing, and locked is true exactly when the fold
was halted this way. -/
theorem C5_chargeback_halts (c : ℕ) (s : MutableTransactionStore) :
    (∀ pre t post, get_transactions_for_client c s = pre ++ t :: post →
      (∀ e ∈ pre, e.charged_back = false) → t.charged_back = true →
      get_account_for_client c s =
        { (get_account_loop (initialAccount c) pre).1 with locked := true })
    ∧ ((get_account_for_client c s).locked = true ↔ haltedByChargeback c s = true) := by
  constructor
  · intro pre t post hsplit hpre ht
    simp only [get_account_for_client, hsplit,
      get_account_loop_append_halt pre t post _ hpre ht]
    simp
  · simp only [get_account_for_client, haltedByChargeback]
    by_cases h :
        (get_account_loop (initialAccount c) (get_transactions_for_client c s)).2 = true
    · simp [h, get_account_loop_locked_of_halted _ _ h]
    · have hf :
          (get_account_loop (initialAccount c) (get_transactions_for_client c s)).2 =
            false := by simpa using h
      have hl := get_account_loop_locked_of_done _ _ hf
      rw [hf]
      simp only [Bool.false_eq_true, if_false, OutputAccount.round_amounts]
      rw [hl]
      simp [initialAccount]

/-- Witness for C5 on the spec's Scenario E: the fold halts at the charged-back
second deposit; only the first deposit contributes, and the account is locked. -/
theorem C5_chargeback_halts_witness :
    get_transactions_for_client 1 exStoreScenarioE =
      [⟨1, 1, 1, 100, false, false⟩] ++ ⟨2, 1, 2, 50, false, true⟩ ::
        [⟨3, 1, 3, 30, false, false⟩, ⟨4, 1, 4, 25, false, false⟩]
    ∧ get_account_for_client 1 exStoreScenarioE =
        { (get_account_loop (initialAccount 1) [⟨1, 1, 1, 100, false, false⟩]).1 with
            locked := true }
    ∧ ((get_account_for_client 1 exStoreScenarioE).locked = true ↔
        haltedByChargeback 1 exStoreScenarioE = true) := by
  have hsplit : get_transactions_for_client 1 exStoreScenarioE =
      [⟨1, 1, 1, 100, false, false⟩] ++ ⟨2, 1, 2, 50, false, true⟩ ::
        [⟨3, 1, 3, 30, false, false⟩, ⟨4, 1, 4, 25, false, false⟩] := by
    norm_num [exStoreScenarioE, get_transactions_for_client, chargeback_transaction,
      dispute_transaction, insert_transaction, emptyStore]
  exact ⟨hsplit,
    (C5_chargeback_halts 1 exStoreScenarioE).1 _ _ _ hsplit (by simp) rfl,
    (C5_chargeback_halts 1 exStoreScenarioE).2⟩

/-- C6: a Chargeback sets disputed = false and charged_back = true on a
matching (client, transaction) entry exactly when that entry is currently
disputed; when every matching entry is undisputed, the store is left completely
unchanged, so any later reconstruction (balances and locked flag alike) is
unaffected, for every client. -/
theorem C6_chargeback_semantics (s : MutableTransactionStore) (c t : ℕ) :
    (∀ e ∈ s.transactions, e.client_id = c → e.transaction_id = t →
      e.disputed = true →
      { e with disputed := false, charged_back := true } ∈
        (chargeback_transaction c t s).transactions)
    ∧ ((∀ e ∈ s.transactions, e.client_id = c → e.transaction_id = t →
          e.disputed = false) →
        chargeback_transaction c t s = s
        ∧ ∀ c2, get_account_for_client c2 (chargeback_transaction c t s) =
            get_account_for_client c2 s) := by
  constructor
  · intro e he hc ht hd
    simp only [chargeback_transaction]
    exact List.mem_map.mpr ⟨e, he, by simp [hc, ht, hd]⟩
  · intro hall
    have hs : chargeback_transaction c t s = s :=
      store_update_eq_self s _ (fun e he => by
        rw [if_neg]
        rintro ⟨hc2, ht2, hd2⟩
        rw [hall e he hc2 ht2] at hd2
        exact Bool.false_ne_true hd2)
    exact ⟨hs, fun c2 => by rw [hs]⟩

/-- Witness for C6: charging back the disputed entry of `exStoreDisputed` flips
its flags, and charging back the undisputed entry of `exStoreSingle` is a
complete no-op, reconstruction included. -/
theorem C6_chargeback_semantics_witness :
    ({ (⟨1, 7, 15, 3, true, false⟩ : MutableTransaction) with
        disputed := false, charged_back := true } ∈
      (chargeback_transaction 7 15 exStoreDisputed).transactions)
    ∧ chargeback_transaction 7 15 exStoreSingle = exStoreSingle
    ∧ get_account_for_client 7 (chargeback_transaction 7 15 exStoreSingle) =
        get_account_for_client 7 exStoreSingle := by
  have h1 := (C6_chargeback_semantics exStoreDisputed 7 15).1
    ⟨1, 7, 15, 3, true, false⟩
    (by norm_num [exStoreDisputed, exStoreSingle, dispute_transaction,
      insert_transaction, emptyStore]) rfl rfl rfl
  have h2 := (C6_chargeback_semantics exStoreSingle 7 15).2
    (by norm_num [exStoreSingle, insert_transaction, emptyStore])
  exact ⟨h1, h2.1, h2.2 7⟩

/-- Ingesting one event preserves the presence of a charged-back entry for a
given (client, transaction) pair. -/
theorem add_input_preserves_charged_back (s s2 : MutableTransactionStore)
    (it : InputTransaction) (c t : ℕ)
    (hrun : add_input s it = .ok s2)
    (h : ∃ e ∈ s.transactions, e.client_id = c ∧ e.transaction_id = t ∧
        e.charged_back = true) :
    ∃ e ∈ s2.transactions, e.client_id = c ∧ e.transaction_id = t ∧
      e.charged_back = true := by
  cases htt : it.transaction_type <;> rw [add_input, htt] at hrun
  case deposit =>
    cases ha : it.amount with
    | none => rw [ha] at hrun; exact absurd hrun (by simp)
    | some a =>
      rw [ha] at hrun
      simp only [Except.ok.injEq] at hrun
      subst hrun
      unfold insert_transaction
      split
      · exact h
      · obtain ⟨e, he, h1, h2, h3⟩ := h
        exact ⟨e, List.mem_append_left _ he, h1, h2, h3⟩
  case withdrawal =>
    cases ha : it.amount with
    | none => rw [ha] at hrun; exact absurd hrun (by simp)
    | some a =>
      rw [ha] at hrun
      simp only [Except.ok.injEq] at hrun
      subst hrun
      unfold insert_transaction
      split
      · exact h
      · obtain ⟨e, he, h1, h2, h3⟩ := h
        exact ⟨e, List.mem_append_left _ he, h1, h2, h3⟩
  case dispute =>
    simp only [Except.ok.injEq] at hrun
    subst hrun
    exact mem_map_preserving _ _ (fun e => by split <;> simp) c t h
  case resolve =>
    simp only [Except.ok.injEq] at hrun
    subst hrun
    exact mem_map_preserving _ _ (fun e => by split <;> simp) c t h
  case chargeback =>
    simp only [Except.ok.injEq] at hrun
    subst hrun
    exact mem_map_preserving _ _ (fun e => by split <;> simp) c t h

/-- A whole successful ingestion run preserves the presence of a charged-back
entry for a given (client, transaction) pair. -/
theorem runEvents_preserves_charged_back (events : List InputTransaction)
    (s s2 : MutableTransactionStore) (c t : ℕ)
    (hrun : runEvents s events = .ok s2)
    (h : ∃ e ∈ s.transactions, e.client_id = c ∧ e.transaction_id = t ∧
        e.charged_back = true) :
    ∃ e ∈ s2.transactions, e.client_id = c ∧ e.transaction_id = t ∧
      e.charged_back = true := by
  induction events generalizing s with
  | nil =>
    simp only [runEvents, Except.ok.injEq] at hrun
    subst hrun
    exact h
  | cons it rest ih =>
    rw [runEvents] at hrun
    cases ha : add_input s it with
    | error m => rw [ha] at hrun; exact absurd hrun (by simp)
    | ok s1 =>
      rw [ha] at hrun
      exact ih s1 hrun (add_input_preserves_charged_back s s1 it c t ha h)

/-- A charged-back entry belonging to a client forces that client's
reconstructed account to be locked. -/
theorem locked_of_charged_back_mem (c : ℕ) (s : MutableTransactionStore)
    (h : ∃ e ∈ s.transactions, e.client_id = c ∧ e.charged_back = true) :
    (get_account_for_client c s).locked = true := by
  obtain ⟨e, he, hc, hcb⟩ := h
  have hmem : e ∈ get_transactions_for_client c s := by
    simp [get_transactions_for_client, List.mem_filter, he, hc]
  have h2 := get_account_loop_halted_of_mem _ (initialAccount c) e hmem hcb
  have hl := get_account_loop_locked_of_halted _ (initialAccount c) h2
  simp only [get_account_for_client, h2, if_true]
  exact hl

/-- C7: once an entry has been charged back, no later successfully ingested
event sequence (Disputes and Resolves included) clears the flag, and every
later reconstruction of that client's account reports locked = true. -/
theorem C7_lock_permanent (s : MutableTransactionStore)
    (events : List InputTransaction) (s2 : MutableTransactionStore) (c t : ℕ)
    (hrun : runEvents s events = .ok s2)
    (hcb : ∃ e ∈ s.transactions, e.client_id = c ∧ e.transaction_id = t ∧
        e.charged_back = true) :
    (∃ e ∈ s2.transactions, e.client_id = c ∧ e.transaction_id = t ∧
        e.charged_back = true)
    ∧ (get_account_for_client c s2).locked = true := by
  have hp := runEvents_preserves_charged_back events s s2 c t hrun hcb
  refine ⟨hp, locked_of_charged_back_mem c s2 ?_⟩
  obtain ⟨e, he, h1, h2, h3⟩ := hp
  exact ⟨e, he, h1, h3⟩

/-- Witness for C7: after a further Dispute and Resolve on the charged-back
entry of `exStoreChargedBack`, the flag survives and the account stays locked. -/
theorem C7_lock_permanent_witness :
    (∃ e ∈ (resolve_dispute 7 15 (dispute_transaction 7 15
        exStoreChargedBack)).transactions,
      e.client_id = 7 ∧ e.transaction_id = 15 ∧ e.charged_back = true)
    ∧ (get_account_for_client 7 (resolve_dispute 7 15 (dispute_transaction 7 15
        exStoreChargedBack))).locked = true :=
  C7_lock_permanent exStoreChargedBack
    [⟨.dispute, 7, 15, none⟩, ⟨.resolve, 7, 15, none⟩]
    (resolve_dispute 7 15 (dispute_transaction 7 15 exStoreChargedBack)) 7 15
    (by simp [runEvents, add_input])
    ⟨⟨1, 7, 15, 3, false, true⟩,
      by norm_num [exStoreChargedBack, exStoreDisputed, exStoreSingle,
        chargeback_transaction, dispute_transaction, insert_transaction, emptyStore],
      rfl, rfl, rfl⟩

/-- C8: when every entry matching the (client, transaction) pair is undisputed,
a Dispute followed by a Resolve for that pair returns the store -- and hence
every client's reconstructed snapshot -- to exactly its prior state. -/
theorem C8_dispute_resolve_roundtrip (s : MutableTransactionStore) (c t : ℕ)
    (h : ∀ e ∈ s.transactions, e.client_id = c → e.transaction_id = t →
        e.disputed = false) :
    resolve_dispute c t (dispute_transaction c t s) = s
    ∧ ∀ c2, get_account_for_client c2 (resolve_dispute c t
        (dispute_transaction c t s)) = get_account_for_client c2 s := by
  have hstore : resolve_dispute c t (dispute_transaction c t s) = s := by
    simp only [dispute_transaction, resolve_dispute, List.map_map]
    apply store_update_eq_self
    intro e he
    simp only [Function.comp_apply]
    by_cases hc2 : e.client_id = c ∧ e.transaction_id = t
    · rw [if_pos hc2]
      rw [if_pos (show ({e with disputed := true} :
          MutableTransaction).client_id = c ∧ ({e with disputed := true} :
          MutableTransaction).transaction_id = t from ⟨hc2.1, hc2.2⟩)]
      have hd := h e he hc2.1 hc2.2
      cases e
      simp_all
    · rw [if_neg hc2, if_neg hc2]
  exact ⟨hstore, fun c2 => by rw [hstore]⟩

/-- Witness for C8 on the undisputed single-entry store `exStoreSingle`. -/
theorem C8_dispute_resolve_roundtrip_witness :
    resolve_dispute 7 15 (dispute_transaction 7 15 exStoreSingle) = exStoreSingle
    ∧ get_account_for_client 7 (resolve_dispute 7 15 (dispute_transaction 7 15
        exStoreSingle)) = get_account_for_client 7 exStoreSingle := by
  have h := C8_dispute_resolve_roundtrip exStoreSingle 7 15
    (by norm_num [exStoreSingle, insert_transaction, emptyStore])
  exact ⟨h.1, h.2 7⟩

end Pledger
